import Mathlib

/-!
# Verification of the `tb0hdan/simulator` graceful-shutdown TCP server

Shallow embedding of the server core (`pkg/server`): the packed
connection-state cell, the request handler, the shutdown-aware dispatch
wrapper, the registry (listener/connection tracking), the drain scan
(`closeIdleConns`) and the `Shutdown` polling loop.

Machine integers are modelled as `Nat`/`Int` with explicit `% 2^64`
where Go's `uint64`/`int64` conversions can overflow.  Concurrency is
modelled by an explicit step relation on a registry state (for the
membership invariant) and by boolean oracles deciding races (for the
grace-period timer race).
-/

namespace Simulator

/-! ## Connection states

Go: `type ConnState int` with `StateNew = 0`, `StateIdle = 1`,
`StateClosed = 2` (iota) — `pkg/server/connection.go`. -/

inductive ConnState where
  | StateNew
  | StateIdle
  | StateClosed
deriving DecidableEq, Repr

/-- The numeric value of a `ConnState` (Go `iota` order). -/
def ConnState.toNat : ConnState → Nat
  | .StateNew => 0
  | .StateIdle => 1
  | .StateClosed => 2

/-! ## Packed state cell

Go: `curState atomic.Uint64 // packed (unixtime<<8|uint8(ConnState))`.
A packed cell is a `uint64`, modelled as a `Nat` below `2^64`. -/

/-- `getState` unpacks the cell:
`return ConnState(packedState & 0xff), int64(packedState >> 8)`.
The first component is the raw low byte (the Go code converts it to
`ConnState` without a range check); the second is the Unix-second
timestamp.  `packed >>> 8 < 2^56` always fits `int64`, so the Go
`int64` conversion is the identity and the result is a plain `Nat`. -/
def getState (packed : Nat) : Nat × Nat :=
  (packed &&& 0xff, packed >>> 8)

/-- The packing expression of `setState`:
`packedState := uint64(time.Now().Unix()<<8) | uint64(state)`.
The shift happens on `int64` and is then converted to `uint64`; for any
nonnegative `now` the stored bits are `(now <<< 8) % 2^64` or-ed with
the state byte. -/
def packState (now : Nat) (state : Nat) : Nat :=
  ((now <<< 8) % 2 ^ 64) ||| state

/-- `setState`'s store-or-panic part:
```
if state > 0xff || state < 0 { panic("internal error") }
packedState := uint64(time.Now().Unix()<<8) | uint64(state)
c.curState.Store(packedState)
```
`none` models the panic; `some p` models storing packed value `p`.
(`state` is a Go `int`, hence `Int` here.) -/
def setStatePacked (state : Int) (now : Nat) : Option Nat :=
  if state > 0xff ∨ state < 0 then none
  else some (packState now state.toNat)

/-! ## Request handler

Go (`pkg/server/connection.go`, current revision — the one using the
`Response*` constants from `consts.go`): `handleRequest` splits on `"|"`,
requires exactly two fields with the first equal to `"PAYMENT"`, parses
the second with `strconv.Atoi`, rejects a non-positive amount, sleeps
for `min(amount, 10000)` ms when `amount > 100` (timing only; no effect
on the returned string) and returns the accepted response. -/

def ResponseRejected : String := "RESPONSE|REJECTED|"
def ResponseAccepted : String := "RESPONSE|ACCEPTED|"
def ResponseTransactionProcessed : String :=
  ResponseAccepted ++ "Transaction processed"
def ResponseInvalidRequest : String := ResponseRejected ++ "Invalid request"
def ResponseInvalidAmount : String := ResponseRejected ++ "Invalid amount"
def ResponseCancelled : String := ResponseRejected ++ "Cancelled"

/-- Go `strings.Split(s, sep)` for a single-character separator: split
around every occurrence of `sep`; the empty string yields one empty
field.  Structurally recursive over the character list. -/
def goSplit (sep : Char) : List Char → List (List Char)
  | [] => [[]]
  | c :: rest =>
    match goSplit sep rest with
    | [] => [[c]]
    | g :: gs => if c = sep then [] :: g :: gs else (c :: g) :: gs

/-- Numeric value of a list of decimal digit characters. -/
def digitsVal (cs : List Char) : Nat :=
  cs.foldl (fun acc c => 10 * acc + (c.toNat - '0'.toNat)) 0

/-- Go `strconv.Atoi` (equivalently `ParseInt(s, 10, 64)` on a 64-bit
platform): an optional sign, then one or more decimal digits, value
within `int64` range; anything else (empty string, stray characters,
overflow) yields an error, modelled as `none`. -/
def atoi (cs : List Char) : Option Int :=
  let (neg, digits) :=
    match cs with
    | '-' :: rest => (true, rest)
    | '+' :: rest => (false, rest)
    | _ => (false, cs)
  if digits.isEmpty then none
  else if ¬ digits.all (fun c => c.isDigit) then none
  else
    let v := digitsVal digits
    if neg then
      if v ≤ 2 ^ 63 then some (-(v : Int)) else none
    else
      if v ≤ 2 ^ 63 - 1 then some (v : Int) else none

/-- `handleRequest` — the business logic, faithful to the source.
`strings.Split(request, "|")` is `goSplit` on the request's
characters.  The `time.Sleep` block does not affect the returned
string and is omitted. -/
def handleRequest (request : String) : String :=
  let parts := goSplit '|' request.toList
  if parts.length ≠ 2 ∨ parts[0]? ≠ some "PAYMENT".toList then
    ResponseInvalidRequest
  else
    match atoi (parts[1]?.getD []) with
    | none => ResponseInvalidAmount
    | some amount =>
      if amount ≤ 0 then ResponseInvalidAmount
      else ResponseTransactionProcessed

/-! ## Shutdown-aware dispatch

Go `handleRequestWrapped`:
```
if !c.server.inShutdown.Load() { return c.handleRequest(request) }
handleCh := make(chan string)
go func() { handleCh <- c.handleRequest(request) }()
ctx, cancel := context.WithTimeout(context.Background(), c.server.gracePeriod)
defer cancel()
select {
case <-ctx.Done():      return ResponseCancelled
case result := <-handleCh: return result
}
```
The `select` race between the grace-period timer and the handler is a
real-time event; it is modelled by the boolean oracle
`handlerBeatsTimer` (true when the handler's result arrives before the
timer fires); `select` commits to exactly one branch. -/

def handleRequestWrapped (inShutdown : Bool) (handlerBeatsTimer : Bool)
    (request : String) : String :=
  if !inShutdown then handleRequest request
  else if handlerBeatsTimer then handleRequest request
  else ResponseCancelled

/-! ## Drain scan (`closeIdleConns`)

Go (`pkg/server/server.go`):
```
quiescent := true
for c := range s.activeConn {
    st, unixSec := c.getState()
    if st == StateNew && unixSec < time.Now().Unix()-5 { st = StateIdle }
    if st != StateIdle || unixSec == 0 { quiescent = false; continue }
    c.rwc.Close()
    delete(s.activeConn, c)
}
return quiescent
```
The per-connection decision depends only on that connection's packed
cell and the scan time, so the set is modelled as a `List Nat` of
packed values (iteration order is irrelevant to the outcome). -/

/-- The per-connection body of the drain scan: `true` when the scan
closes and removes this connection (the `continue` branch not taken).
`now` is `time.Now().Unix()` as an `Int` (the Go comparison is on
`int64`). -/
def connClosable (now : Int) (packed : Nat) : Bool :=
  let st := (getState packed).1
  let unixSec := (getState packed).2
  let st := if st = 0 ∧ (unixSec : Int) < now - 5 then 1 else st
  ¬ (st ≠ 1 ∨ unixSec = 0)

/-- One drain scan over the active set: returns the connections kept
(the new active set; the removed ones had `rwc.Close()` called) and the
`quiescent` flag, which the loop sets to `false` once per connection it
declines to close. -/
def closeIdleConns (now : Int) : List Nat → List Nat × Bool
  | [] => ([], true)
  | packed :: rest =>
    let (kept, quiescent) := closeIdleConns now rest
    if connClosable now packed then (kept, quiescent)
    else (packed :: kept, false)

/-- The claim-side closability rule, written from the spec's wording:
Idle with a nonzero timestamp, or New with a nonzero timestamp more
than 5 seconds in the past. -/
def closableSpec (now : Int) (packed : Nat) : Prop :=
  let st := (getState packed).1
  let ts := (getState packed).2
  (st = 1 ∧ ts ≠ 0) ∨ (st = 0 ∧ ts ≠ 0 ∧ (ts : Int) < now - 5)

instance (now : Int) (packed : Nat) : Decidable (closableSpec now packed) := by
  unfold closableSpec; infer_instance

/-! ## Listener-close errors and the Shutdown loop

Go `Shutdown(ctx)` sets the shutdown flag, closes the listeners under
the lock collecting `lnerr`, waits for the accept loops, then polls:
```
for {
    if s.closeIdleConns() { return lnerr }
    select {
    case <-ctx.Done(): return ctx.Err()
    case <-timer.C:    timer.Reset(nextPollInterval())
    }
}
```
Errors are a closed taxonomy here: a `context` error
(`DeadlineExceeded`/`Canceled`) or an I/O error from a listener's
`Close`, which are distinct Go values. -/

inductive GoError where
  | deadlineExceeded
  | canceled
  | listenerClose (code : Nat)
deriving DecidableEq, Repr

/-- `closeListenersLocked`: iterate the listener set, `Close` each, and
keep the first non-nil error:
```
if cerr := (*ln).Close(); cerr != nil && err == nil { err = cerr }
```
Modelled over the list of per-listener `Close` results in iteration
order. -/
def closeListenersLocked (results : List (Option GoError)) : Option GoError :=
  results.foldl (fun err cerr => if cerr ≠ none ∧ err = none then cerr else err)
    none

/-- The `Shutdown` polling loop, driven by the trace of poll cycles.
Each trace entry is one iteration: the drain scan's `quiescent` result,
then whether `ctx.Done()` fires before the poll timer in that
iteration's `select`.  `none` means the trace ended with the loop still
polling; `some r` means `Shutdown` returned `r` (`r = none` is a nil
error). -/
def shutdownLoop (lnerr : Option GoError) (ctxErr : GoError) :
    List (Bool × Bool) → Option (Option GoError)
  | [] => none
  | (quiescent, ctxDone) :: rest =>
    if quiescent then some lnerr
    else if ctxDone then some (some ctxErr)
    else shutdownLoop lnerr ctxErr rest

/-- `Shutdown` after the flag store and the listener-group wait: the
collected first listener-close error fed into the polling loop. -/
def shutdownResult (closeResults : List (Option GoError)) (ctxErr : GoError)
    (trace : List (Bool × Bool)) : Option (Option GoError) :=
  shutdownLoop (closeListenersLocked closeResults) ctxErr trace

/-! ## Listener registration and `Start`

Go `trackListener` (under the registry lock):
```
if add {
    if s.shuttingDown() { return false }
    s.listeners[ln] = struct{}{}; s.listenerGroup.Add(1)
} else { delete(s.listeners, ln); s.listenerGroup.Done() }
return true
```
(The `s.listeners == nil` lazy `make` does not change the set's
members.) -/

def trackListener (listeners : Finset Nat) (shuttingDown : Bool) (ln : Nat)
    (add : Bool) : Finset Nat × Bool :=
  if add then
    if shuttingDown then (listeners, false)
    else (insert ln listeners, true)
  else (listeners.erase ln, true)

/-- Outcome of `Start` up to (and including) its listener
registration. -/
inductive StartResult where
  | bindError (code : Nat)
  | serverClosed
  | acceptLoopEntered
deriving DecidableEq, Repr

/-- `Start`'s entry sequence: bind (`net.Listen`), then
`if !s.trackListener(&listener, true) { return ErrServerClosed }` —
the accept loop is reached only when registration succeeds.  (The
`defer s.trackListener(&listener, false)` is registered after that
early return, so the failed path leaves the listener set untouched.)
`StartResult.serverClosed` is the `ErrServerClosed` sentinel. -/
def startEntry (bindResult : Option Nat) (shuttingDown : Bool)
    (listeners : Finset Nat) (ln : Nat) : Finset Nat × StartResult :=
  match bindResult with
  | some code => (listeners, .bindError code)
  | none =>
    let tracked := trackListener listeners shuttingDown ln true
    if tracked.2 = false then (tracked.1, .serverClosed)
    else (tracked.1, .acceptLoopEntered)

/-! ## Registry state machine

The events that touch a connection's packed cell or the registry's
`activeConn` set, as a step relation:

* `alloc` — `newConn` builds a `conn` whose `curState` is the zero
  `atomic.Uint64`; it is *not* yet in `activeConn` (`trackConn` runs
  only from `setState`).
* `set` — `setState(state)`: `trackConn(c, true)` on `StateNew`,
  `trackConn(c, false)` on `StateClosed`, nothing on `StateIdle`
  (the `switch` has no default), then the packed store.  The program
  calls it only with enumeration values, so no panic branch here.
* `drain` — one `closeIdleConns` scan at time `now`: deletes from
  `activeConn` exactly the connections the scan closes (their cells
  are not written; `delete(s.activeConn, c)` is the only mutation).

Connections are identified by `Nat` ids; `packed` maps each id to its
cell (zero before allocation, as Go zero-initializes the struct). -/

structure RegState where
  allocated : Finset Nat
  packed : Nat → Nat
  active : Finset Nat

/-- The registry before any connection is accepted. -/
def RegState.init : RegState := ⟨∅, fun _ => 0, ∅⟩

/-- The raw state byte of connection `c`'s cell. -/
def stateByte (σ : RegState) (c : Nat) : Nat := (getState (σ.packed c)).1

/-- The `activeConn` set after a `setState(state)` call on `c`:
the `switch` in `setState` forwarded to `trackConn`. -/
def trackConnUpdate (active : Finset Nat) (c : Nat) :
    ConnState → Finset Nat
  | .StateNew => insert c active
  | .StateClosed => active.erase c
  | .StateIdle => active

inductive RegStep : RegState → RegState → Prop
  | alloc (σ : RegState) (c : Nat) (hc : c ∉ σ.allocated) :
      RegStep σ ⟨insert c σ.allocated, Function.update σ.packed c 0, σ.active⟩
  | set (σ : RegState) (c : Nat) (s : ConnState) (now : Nat)
      (hc : c ∈ σ.allocated) :
      RegStep σ ⟨σ.allocated,
        Function.update σ.packed c (packState now s.toNat),
        trackConnUpdate σ.active c s⟩
  | drain (σ : RegState) (now : Int) :
      RegStep σ ⟨σ.allocated, σ.packed,
        σ.active.filter (fun c => ¬ connClosable now (σ.packed c))⟩

/-- States the registry can actually be in. -/
def Reachable (σ : RegState) : Prop :=
  Relation.ReflTransGen RegStep RegState.init σ


/-- `newConn` builds `&conn{server: s, rwc: rwc, curState: atomic.Uint64{}}`
(`pkg/server/server.go`): the packed cell starts as the zero value; the
connection is not yet in `activeConn` (`trackConn` only runs from
`setState`). -/
def newConnPacked : Nat := 0

/-! A concrete three-step execution used below: accept a connection
(id 0), stamp it `StateNew` at Unix second 10, then run one drain scan
at Unix second 20 (the connection is stale-New, so the scan closes it
and removes it from `activeConn` without a `StateClosed` transition). -/

def regA : RegState :=
  ⟨insert 0 RegState.init.allocated, Function.update RegState.init.packed 0 0,
    RegState.init.active⟩

def regB : RegState :=
  ⟨regA.allocated,
    Function.update regA.packed 0 (packState 10 ConnState.StateNew.toNat),
    trackConnUpdate regA.active 0 ConnState.StateNew⟩

def regC : RegState :=
  ⟨regB.allocated, regB.packed,
    regB.active.filter (fun c => ¬ connClosable 20 (regB.packed c))⟩

/-! # Helper lemmas -/

/-! Helper lemmas about the packing arithmetic. -/

theorem packState_eq_of_lt (now state : Nat) (hn : now < 2 ^ 56)
    (hs : state < 2 ^ 8) : packState now state = 2 ^ 8 * now + state := by
  unfold packState
  have hshift : now <<< 8 = 2 ^ 8 * now := by
    rw [Nat.shiftLeft_eq]; ring
  have hlt : 2 ^ 8 * now < 2 ^ 64 := by
    have h : 2 ^ 8 * now < 2 ^ 8 * 2 ^ 56 :=
      Nat.mul_lt_mul_of_le_of_lt (Nat.le_refl _) hn (by norm_num)
    omega
  rw [hshift, Nat.mod_eq_of_lt hlt, ← Nat.mul_add_lt_is_or hs]

theorem getState_packState (now state : Nat) (hn : now < 2 ^ 56)
    (hs : state < 2 ^ 8) : getState (packState now state) = (state, now) := by
  rw [packState_eq_of_lt now state hn hs]
  unfold getState
  have h255 : (0xff : Nat) = 2 ^ 8 - 1 := by norm_num
  rw [h255, Nat.and_pow_two_sub_one_eq_mod, Nat.shiftRight_eq_div_pow]
  have hmod : (2 ^ 8 * now + state) % 2 ^ 8 = state := by
    rw [Nat.mul_add_mod, Nat.mod_eq_of_lt hs]
  have hdiv : (2 ^ 8 * now + state) / 2 ^ 8 = now := by
    rw [Nat.mul_add_div (by norm_num : 0 < 2 ^ 8), Nat.div_eq_of_lt hs]
    omega
  rw [hmod, hdiv]


theorem connClosable_iff (now : Int) (packed : Nat) :
    connClosable now packed = true ↔ closableSpec now packed := by
  unfold connClosable closableSpec
  by_cases h0 : (getState packed).1 = 0 <;>
    by_cases h5 : ((getState packed).2 : Int) < now - 5 <;>
      simp [h0, h5]

theorem closeIdleConns_kept (now : Int) (conns : List Nat) :
    (closeIdleConns now conns).1 =
      conns.filter (fun p => ¬ connClosable now p) := by
  induction conns with
  | nil => rfl
  | cons p rest ih =>
    unfold closeIdleConns
    by_cases h : connClosable now p = true <;> simp [h, ih, List.filter]

theorem closeIdleConns_quiescent (now : Int) (conns : List Nat) :
    (closeIdleConns now conns).2 = conns.all (connClosable now) := by
  induction conns with
  | nil => rfl
  | cons p rest ih =>
    unfold closeIdleConns
    by_cases h : connClosable now p = true <;> simp [h, ih]


theorem closeListenersLocked_stop (results : List (Option GoError))
    (e : GoError) :
    results.foldl
      (fun err cerr => if cerr ≠ none ∧ err = none then cerr else err)
      (some e) = some e := by
  induction results with
  | nil => rfl
  | cons r rest ih => simpa using ih

theorem closeListenersLocked_eq_firstError (results : List (Option GoError)) :
    closeListenersLocked results = (results.filterMap id).head? := by
  induction results with
  | nil => rfl
  | cons r rest ih =>
    cases r with
    | none => simpa [closeListenersLocked] using ih
    | some e => simp [closeListenersLocked, closeListenersLocked_stop]


/-- The low byte written by `packState` is the state value, for any
timestamp (the `% 2^64` truncation only ever discards high bits). -/
theorem stateByte_packState (now state : Nat) (hs : state < 2 ^ 8) :
    (getState (packState now state)).1 = state := by
  show ((now <<< 8) % 2 ^ 64 ||| state) &&& 0xff = state
  have h255 : (0xff : Nat) = 2 ^ 8 - 1 := by norm_num
  rw [Nat.and_distrib_right, h255, Nat.and_pow_two_sub_one_eq_mod,
    Nat.and_pow_two_sub_one_eq_mod]
  have hx : (now <<< 8) % 2 ^ 64 % 2 ^ 8 = 0 := by
    rw [Nat.mod_mod_of_dvd _ (pow_dvd_pow 2 (by norm_num)),
      Nat.shiftLeft_eq, Nat.mul_mod_left]
  rw [hx, Nat.mod_eq_of_lt hs, Nat.zero_or]

/-- C4 (amended): in every reachable registry state, a connection in
the active set has a state byte other than Closed (registration on the
New transition, deregistration on the Closed transition or on drain
removal).  The converse direction of the spec's iff fails: a freshly
allocated connection, and a drain-removed one, have non-Closed state
while outside the set — see the counterexample. -/
theorem claim_C4_amended (σ : RegState) (hσ : Reachable σ) :
    ∀ c ∈ σ.active, stateByte σ c ≠ ConnState.StateClosed.toNat := by
  induction hσ with
  | refl => intro c hc; simp [RegState.init] at hc
  | tail _ hstep ih =>
    cases hstep with
    | alloc c' hc' =>
      intro c hc
      simp only [stateByte] at ih ⊢
      by_cases hcc : c = c'
      · subst hcc
        rw [Function.update_same]
        simp [getState, ConnState.toNat]
      · rw [Function.update_noteq hcc]
        exact ih c hc
    | set c' s now hc' =>
      intro c hc
      simp only [stateByte] at ih ⊢
      by_cases hcc : c = c'
      · subst hcc
        cases s with
        | StateClosed =>
          exfalso
          simp only [trackConnUpdate] at hc
          exact (Finset.mem_erase.mp hc).1 rfl
        | StateNew =>
          rw [Function.update_same,
            stateByte_packState now _ (by simp [ConnState.toNat])]
          simp [ConnState.toNat]
        | StateIdle =>
          rw [Function.update_same,
            stateByte_packState now _ (by simp [ConnState.toNat])]
          simp [ConnState.toNat]
      · rw [Function.update_noteq hcc]
        apply ih
        cases s with
        | StateNew =>
          simp only [trackConnUpdate] at hc
          exact (Finset.mem_insert.mp hc).resolve_left hcc
        | StateIdle => exact hc
        | StateClosed =>
          simp only [trackConnUpdate] at hc
          exact (Finset.mem_erase.mp hc).2
    | drain now =>
      intro c hc
      exact ih c (Finset.mem_filter.mp hc).1


/-- `handleRequest` returns one of its three literal responses, never
the Cancelled one: the exclusivity that makes "normal response or
Cancelled, never both" meaningful. -/
theorem handleRequest_ne_cancelled (request : String) :
    handleRequest request ≠ ResponseCancelled := by
  unfold handleRequest
  dsimp only
  split
  · intro h
    simp [ResponseInvalidRequest, ResponseRejected, ResponseCancelled] at h
  · split
    · intro h
      simp [ResponseInvalidAmount, ResponseRejected, ResponseCancelled] at h
    · split
      · intro h
        simp [ResponseInvalidAmount, ResponseRejected, ResponseCancelled] at h
      · intro h
        simp [ResponseTransactionProcessed, ResponseAccepted, ResponseRejected,
          ResponseCancelled] at h

theorem reachable_regA : Reachable regA :=
  Relation.ReflTransGen.single
    (RegStep.alloc RegState.init 0 (by simp [RegState.init]))

theorem reachable_regB : Reachable regB :=
  Relation.ReflTransGen.tail reachable_regA
    (RegStep.set regA 0 ConnState.StateNew 10
      (by simp [regA, RegState.init]))

theorem reachable_regC : Reachable regC :=
  Relation.ReflTransGen.tail reachable_regB (RegStep.drain regB 20)

/-! # Claims -/

/-- C1: for every request line processed by `handleRequest`: if
splitting the line on `|` does not yield exactly two fields, or the
first field is not `PAYMENT`, the response is
`RESPONSE|REJECTED|Invalid request`; otherwise, if the second field
does not parse as a decimal integer or the parsed amount is not
positive, the response is `RESPONSE|REJECTED|Invalid amount`; otherwise
the response is `RESPONSE|ACCEPTED|Transaction processed`. -/
theorem claim_C1_handleRequest (request : String) :
    ((goSplit '|' request.toList).length ≠ 2 ∨
        (goSplit '|' request.toList)[0]? ≠ some "PAYMENT".toList →
      handleRequest request = ResponseInvalidRequest) ∧
    ((goSplit '|' request.toList).length = 2 →
      (goSplit '|' request.toList)[0]? = some "PAYMENT".toList →
      (atoi ((goSplit '|' request.toList)[1]?.getD []) = none →
        handleRequest request = ResponseInvalidAmount) ∧
      (∀ amount, atoi ((goSplit '|' request.toList)[1]?.getD []) = some amount →
        amount ≤ 0 → handleRequest request = ResponseInvalidAmount) ∧
      (∀ amount, atoi ((goSplit '|' request.toList)[1]?.getD []) = some amount →
        0 < amount → handleRequest request = ResponseTransactionProcessed)) := by
  constructor
  · intro h
    simp only [handleRequest]
    rw [if_pos h]
  · intro hlen hpay
    have hcond : ¬ ((goSplit '|' request.toList).length ≠ 2 ∨
        (goSplit '|' request.toList)[0]? ≠ some "PAYMENT".toList) := by
      push_neg
      exact ⟨hlen, hpay⟩
    refine ⟨?_, ?_, ?_⟩
    · intro hnone
      simp only [handleRequest]
      rw [if_neg hcond, hnone]
    · intro amount hsome hle
      simp only [handleRequest]
      rw [if_neg hcond, hsome]
      simp only [if_pos hle]
    · intro amount hsome hpos
      simp only [handleRequest]
      rw [if_neg hcond, hsome]
      simp only [if_neg (by omega : ¬ amount ≤ 0)]

/-- Witness for C1: all four outcome classes at concrete requests. -/
theorem claim_C1_witness :
    handleRequest "INVALID|100" = ResponseInvalidRequest ∧
    handleRequest "PAYMENT|abc" = ResponseInvalidAmount ∧
    handleRequest "PAYMENT|-5" = ResponseInvalidAmount ∧
    handleRequest "PAYMENT|10" = ResponseTransactionProcessed :=
  ⟨(claim_C1_handleRequest "INVALID|100").1 (by decide),
   ((claim_C1_handleRequest "PAYMENT|abc").2 (by decide) (by decide)).1
     (by decide),
   (((claim_C1_handleRequest "PAYMENT|-5").2 (by decide) (by decide)).2.1
     (-5) (by decide) (by decide)),
   (((claim_C1_handleRequest "PAYMENT|10").2 (by decide) (by decide)).2.2
     10 (by decide) (by decide))⟩

/-- C2: `handleRequestWrapped` returns `handleRequest request` when
the shutdown flag is false at entry; when the flag is true it returns
`handleRequest request` if the handler completes before the
grace-period timer, and exactly `RESPONSE|REJECTED|Cancelled` if the
timer fires first (the race outcome is the `handlerBeatsTimer`
oracle; the abandoned handler's result is discarded by `select`). -/
theorem claim_C2_handleRequestWrapped (inShutdown handlerBeatsTimer : Bool)
    (request : String) :
    (inShutdown = false →
      handleRequestWrapped inShutdown handlerBeatsTimer request =
        handleRequest request) ∧
    (inShutdown = true → handlerBeatsTimer = true →
      handleRequestWrapped inShutdown handlerBeatsTimer request =
        handleRequest request) ∧
    (inShutdown = true → handlerBeatsTimer = false →
      handleRequestWrapped inShutdown handlerBeatsTimer request =
        ResponseCancelled) := by
  refine ⟨fun h => ?_, fun h1 h2 => ?_, fun h1 h2 => ?_⟩ <;>
    subst_vars <;> simp [handleRequestWrapped]

/-- Witness for C2: the three dispatch outcomes at concrete inputs. -/
theorem claim_C2_witness :
    handleRequestWrapped false true "PAYMENT|10" = handleRequest "PAYMENT|10" ∧
    handleRequestWrapped true true "PAYMENT|10" = handleRequest "PAYMENT|10" ∧
    handleRequestWrapped true false "PAYMENT|10" = ResponseCancelled :=
  ⟨(claim_C2_handleRequestWrapped false true "PAYMENT|10").1 rfl,
   (claim_C2_handleRequestWrapped true true "PAYMENT|10").2.1 rfl rfl,
   (claim_C2_handleRequestWrapped true false "PAYMENT|10").2.2 rfl rfl⟩

/-- C3: for a request dispatched through `handleRequestWrapped`, the
single response written back is the handler's normal response or
exactly the Cancelled response — never both (the handler never
produces the Cancelled string, so the two outcomes are mutually
exclusive) and never neither; the Cancelled outcome occurs exactly
when the dispatch raced the grace-period timer and lost. -/
theorem claim_C3_exactly_one_response (inShutdown handlerBeatsTimer : Bool)
    (request : String) :
    Xor'
      (handleRequestWrapped inShutdown handlerBeatsTimer request =
        handleRequest request)
      (handleRequestWrapped inShutdown handlerBeatsTimer request =
        ResponseCancelled) ∧
    (handleRequestWrapped inShutdown handlerBeatsTimer request =
        ResponseCancelled ↔
      inShutdown = true ∧ handlerBeatsTimer = false) := by
  have hne := handleRequest_ne_cancelled request
  cases inShutdown <;> cases handlerBeatsTimer <;>
    simp [handleRequestWrapped, Xor', hne, Ne.symm hne]

/-- C7: when the shutdown flag is true, `trackListener(ln, true)`
leaves the listener set unchanged and returns `false`, and `Start`
(after a successful bind) returns the `ErrServerClosed` sentinel
without entering its accept loop; registration never succeeds once the
flag is observed true. -/
theorem claim_C7_trackListener_start (listeners : Finset Nat) (ln : Nat) :
    trackListener listeners true ln true = (listeners, false) ∧
    startEntry none true listeners ln = (listeners, StartResult.serverClosed) := by
  constructor <;> simp [trackListener, startEntry]

/-- C9: packing round-trip — for every state `s ∈ {New, Idle, Closed}`
and timestamp `t < 2^56`, `getState` unpacks `(t<<8)|s` to exactly
`(s, t)`, and `setState(s)` at Unix second `t` stores exactly that
packed value, so a `getState` immediately after returns what was
stored. -/
theorem claim_C9_roundtrip (s t : Nat) (hs : s < 3) (ht : t < 2 ^ 56) :
    getState ((t <<< 8) ||| s) = (s, t) ∧
    setStatePacked (s : Int) t = some ((t <<< 8) ||| s) := by
  have hs8 : s < 2 ^ 8 := by omega
  have hpack : packState t s = (t <<< 8) ||| s := by
    unfold packState
    congr 1
    apply Nat.mod_eq_of_lt
    rw [Nat.shiftLeft_eq]
    have h : t * 2 ^ 8 < 2 ^ 56 * 2 ^ 8 :=
      Nat.mul_lt_mul_of_lt_of_le ht (Nat.le_refl _) (by norm_num)
    omega
  constructor
  · rw [← hpack]
    exact getState_packState t s ht hs8
  · unfold setStatePacked
    rw [if_neg (by omega : ¬ ((s : Int) > 0xff ∨ (s : Int) < 0))]
    rw [Int.toNat_natCast, hpack]

/-- Witness for C9 at `s = StateClosed`, `t = 12345`. -/
theorem claim_C9_witness :
    getState ((12345 <<< 8) ||| 2) = (2, 12345) ∧
    setStatePacked ((2 : Nat) : Int) 12345 = some ((12345 <<< 8) ||| 2) :=
  claim_C9_roundtrip 2 12345 (by decide) (by decide)

/-- C10 (implicit): a connection fresh from `newConn` has packed cell
zero, which `getState` unpacks as `(StateNew, 0)`; a drain scan never
closes it (it stays in the scanned set) and the scan reports
non-quiescent while it is there. -/
theorem claim_C10_fresh_conn :
    getState newConnPacked = (ConnState.StateNew.toNat, 0) ∧
    ∀ (now : Int) (conns : List Nat), newConnPacked ∈ conns →
      newConnPacked ∈ (closeIdleConns now conns).1 ∧
      (closeIdleConns now conns).2 = false := by
  constructor
  · rfl
  · intro now conns hmem
    have hnc : connClosable now newConnPacked = false := by
      unfold connClosable newConnPacked
      by_cases h : (0 : Int) < now - 5 <;> simp [getState, h]
    constructor
    · rw [closeIdleConns_kept]
      exact List.mem_filter.mpr ⟨hmem, by simp [hnc]⟩
    · rw [closeIdleConns_quiescent]
      by_contra hall
      rw [Bool.not_eq_false, List.all_eq_true] at hall
      exact absurd (hall newConnPacked hmem) (by simp [hnc])

/-- Witness for C10: one fresh connection, scan at Unix second 77. -/
theorem claim_C10_witness :
    newConnPacked ∈ (closeIdleConns 77 [newConnPacked]).1 ∧
    (closeIdleConns 77 [newConnPacked]).2 = false :=
  claim_C10_fresh_conn.2 77 [newConnPacked] (by simp)

/-- C4 (counterexample to the claim as stated): membership in the
active set is *not* equivalent to "state is not Closed", and the
Closed transition is *not* the only deregistration event.  After
`newConn` + `setState(StateNew)` at second 10 and one drain scan at
second 20, connection 0 is stale-New: the scan closed and removed it
while its state byte is still `StateNew`. -/
theorem claim_C4_counterexample :
    ¬ (∀ σ, Reachable σ → ∀ c ∈ σ.allocated,
        (c ∈ σ.active ↔ stateByte σ c ≠ ConnState.StateClosed.toNat)) := by
  intro h
  have h0 : (0 : Nat) ∈ regC.allocated := by
    simp [regC, regB, regA, RegState.init]
  have hiff := h regC reachable_regC 0 h0
  have hstate : stateByte regC 0 = ConnState.StateNew.toNat := by decide
  have hact : (0 : Nat) ∉ regC.active := by decide
  exact hact (hiff.mpr (by rw [hstate]; simp [ConnState.toNat]))

/-- Witness for C4 (amended) at the reachable state `regB`, where
connection 0 is active with state byte `StateNew`. -/
theorem claim_C4_witness :
    stateByte regB 0 ≠ ConnState.StateClosed.toNat :=
  claim_C4_amended regB reachable_regB 0
    (by simp [regB, regA, RegState.init, trackConnUpdate])

/-- C5: one drain scan closes (and removes from the active set)
exactly the connections that are Idle with a nonzero timestamp, or New
with a nonzero timestamp more than 5 seconds in the past; a
zero-timestamp connection is never closed; and the scan reports
quiescent iff every connection it examined was closable, equivalently
iff the set is empty afterwards. -/
theorem claim_C5_closeIdleConns (now : Int) (conns : List Nat) :
    (∀ p, p ∈ (closeIdleConns now conns).1 ↔
      p ∈ conns ∧ ¬ closableSpec now p) ∧
    (∀ p ∈ conns, (getState p).2 = 0 → p ∈ (closeIdleConns now conns).1) ∧
    ((closeIdleConns now conns).2 = true ↔ ∀ p ∈ conns, closableSpec now p) ∧
    ((closeIdleConns now conns).2 = true ↔ (closeIdleConns now conns).1 = []) := by
  have hmem : ∀ p, p ∈ (closeIdleConns now conns).1 ↔
      p ∈ conns ∧ ¬ closableSpec now p := by
    intro p
    rw [closeIdleConns_kept, List.mem_filter]
    simp [connClosable_iff]
  refine ⟨hmem, ?_, ?_, ?_⟩
  · intro p hp hts
    refine (hmem p).mpr ⟨hp, ?_⟩
    unfold closableSpec
    simp [hts]
  · rw [closeIdleConns_quiescent, List.all_eq_true]
    constructor
    · intro h p hp
      exact (connClosable_iff now p).mp (h p hp)
    · intro h p hp
      exact (connClosable_iff now p).mpr (h p hp)
  · rw [closeIdleConns_quiescent, closeIdleConns_kept]
    rw [List.all_eq_true, List.filter_eq_nil_iff]
    constructor
    · intro h p hp
      simp [h p hp]
    · intro h p hp
      have := h p hp
      simpa using this

/-- Witness for C5: a scan at second 100 over a closable Idle
connection (stamped at second 50), a stale-New one (stamped at second
10), a fresh zero-timestamp one, and a too-recent New one (stamped at
second 99). -/
theorem claim_C5_witness :
    (packState 50 1 ∈ (closeIdleConns 100
        [packState 50 1, packState 10 0, 0, packState 99 0]).1 ↔
      packState 50 1 ∈ [packState 50 1, packState 10 0, 0, packState 99 0] ∧
      ¬ closableSpec 100 (packState 50 1)) ∧
    (0 : Nat) ∈ (closeIdleConns 100
      [packState 50 1, packState 10 0, 0, packState 99 0]).1 ∧
    ((closeIdleConns 100 [packState 50 1, packState 10 0, 0,
        packState 99 0]).2 = true ↔
      (closeIdleConns 100 [packState 50 1, packState 10 0, 0,
        packState 99 0]).1 = []) :=
  ⟨(claim_C5_closeIdleConns 100
      [packState 50 1, packState 10 0, 0, packState 99 0]).1 (packState 50 1),
   (claim_C5_closeIdleConns 100
      [packState 50 1, packState 10 0, 0, packState 99 0]).2.1 0
     (by decide) (by decide),
   (claim_C5_closeIdleConns 100
      [packState 50 1, packState 10 0, 0, packState 99 0]).2.2.2⟩

/-- C6: `Shutdown` returns the first listener-close error once a drain
scan reports quiescent; the context's cancellation error when the
context is done before draining completes; and no error when draining
completes first with no listener-close error.  The context error
(`DeadlineExceeded`/`Canceled`) is a different value from any
listener-close error. -/
theorem claim_C6_shutdown (closeResults : List (Option GoError))
    (ctxErr : GoError)
    (hctx : ctxErr = GoError.deadlineExceeded ∨ ctxErr = GoError.canceled) :
    (closeListenersLocked closeResults = (closeResults.filterMap id).head?) ∧
    (∀ pre post d, (∀ x ∈ pre, x = (false, false)) →
      shutdownResult closeResults ctxErr (pre ++ (true, d) :: post) =
        some (closeListenersLocked closeResults)) ∧
    (∀ pre post, (∀ x ∈ pre, x = (false, false)) →
      shutdownResult closeResults ctxErr (pre ++ (false, true) :: post) =
        some (some ctxErr)) ∧
    (closeResults.filterMap id = [] →
      ∀ pre post d, (∀ x ∈ pre, x = (false, false)) →
        shutdownResult closeResults ctxErr (pre ++ (true, d) :: post) =
          some none) ∧
    (∀ code, ctxErr ≠ GoError.listenerClose code) := by
  have hskip : ∀ pre rest, (∀ x ∈ pre, x = ((false : Bool), (false : Bool))) →
      shutdownLoop (closeListenersLocked closeResults) ctxErr (pre ++ rest) =
        shutdownLoop (closeListenersLocked closeResults) ctxErr rest := by
    intro pre rest hpre
    induction pre with
    | nil => rfl
    | cons x xs ih =>
      have hx := hpre x (List.mem_cons_self x xs)
      have htail : ∀ y ∈ xs, y = ((false : Bool), (false : Bool)) :=
        fun y hy => hpre y (List.mem_cons_of_mem x hy)
      subst hx
      simp only [List.cons_append, shutdownLoop, if_neg Bool.false_ne_true]
      exact ih htail
  refine ⟨closeListenersLocked_eq_firstError closeResults, ?_, ?_, ?_, ?_⟩
  · intro pre post d hpre
    unfold shutdownResult
    rw [hskip pre _ hpre]
    simp [shutdownLoop]
  · intro pre post hpre
    unfold shutdownResult
    rw [hskip pre _ hpre]
    simp [shutdownLoop]
  · intro hnone pre post d hpre
    unfold shutdownResult
    rw [hskip pre _ hpre]
    have hln : closeListenersLocked closeResults = none := by
      rw [closeListenersLocked_eq_firstError, hnone]
      rfl
    simp [shutdownLoop, hln]
  · rcases hctx with h | h <;> subst h <;> intro code h <;> exact GoError.noConfusion h

/-- Witness for C6: two listeners whose first close error is
`listenerClose 7`; draining completing on the second poll returns that
error, context done on the second poll returns `DeadlineExceeded`, and
with no listener error a quiescent scan returns no error. -/
theorem claim_C6_witness :
    shutdownResult [none, some (GoError.listenerClose 7)]
      GoError.deadlineExceeded [(false, false), (true, true)] =
      some (some (GoError.listenerClose 7)) ∧
    shutdownResult [none, some (GoError.listenerClose 7)]
      GoError.deadlineExceeded [(false, false), (false, true)] =
      some (some GoError.deadlineExceeded) ∧
    shutdownResult [] GoError.deadlineExceeded [(true, false)] = some none := by
  have h := claim_C6_shutdown [none, some (GoError.listenerClose 7)]
    GoError.deadlineExceeded (Or.inl rfl)
  have h2 := claim_C6_shutdown [] GoError.deadlineExceeded (Or.inl rfl)
  refine ⟨?_, ?_, ?_⟩
  · have := h.2.1 [(false, false)] [] true (by decide)
    simpa using this
  · have := h.2.2.1 [(false, false)] [] (by decide)
    simpa using this
  · have := h2.2.2.2.1 rfl [] [] false (by decide)
    simpa using this

/-- C8 (counterexample to the claim as stated): `setState` does not
panic for every value outside the `{New, Idle, Closed}` enumeration —
the guard only checks the byte range.  State value 3 is outside the
enumeration yet is stored as packed value 3 (at Unix second 0). -/
theorem claim_C8_counterexample :
    ¬ (∀ (s : Int), (∀ cs : ConnState, s ≠ (cs.toNat : Int)) →
        ∀ now, setStatePacked s now = none) := by
  intro h
  have h3 := h 3 (by intro cs; cases cs <;> decide) 0
  exact (by decide : setStatePacked 3 0 ≠ none) h3

/-- C8 (amended): `setState` panics exactly when the state value does
not fit the low byte (`state > 0xff` or `state < 0`); every value in
`[0, 0xff]` — in particular each of `{New, Idle, Closed}`, for which
the panic branch is unreachable — is stored, packed with the
timestamp. -/
theorem claim_C8_amended (s : Int) (now : Nat) :
    (setStatePacked s now = none ↔ 0xff < s ∨ s < 0) ∧
    ((∃ cs : ConnState, s = (cs.toNat : Int)) →
      setStatePacked s now = some (packState now s.toNat)) := by
  constructor
  · unfold setStatePacked
    by_cases h : s > 0xff ∨ s < 0
    · rw [if_pos h]
      simpa using h
    · rw [if_neg h]
      simpa using h
  · rintro ⟨cs, rfl⟩
    unfold setStatePacked
    rw [if_neg (by cases cs <;> simp [ConnState.toNat])]

/-- Witness for C8 (amended): `setState(StateIdle)` at second 42
stores the packed value without panicking. -/
theorem claim_C8_witness :
    setStatePacked ((ConnState.StateIdle.toNat : Nat) : Int) 42 =
      some (packState 42 ConnState.StateIdle.toNat) := by
  have h := (claim_C8_amended ((ConnState.StateIdle.toNat : Nat) : Int) 42).2
    ⟨ConnState.StateIdle, rfl⟩
  simpa using h

end Simulator
